import Mathlib

/-!
Verification of the Zenith data-plane core and scheduler against its
specification.  The definitions below are a shallow embedding of the Rust
sources: `src/core/src/ring_buffer.rs`, `src/core/src/event.rs`,
`src/core/src/error.rs`, `src/core/src/lib.rs`, `src/core/src/engine.rs`,
`src/core/src/wasm_host.rs`, `src/plugins/simple_filter/src/lib.rs` and
`src/zenith-scheduler/src/config.rs`.  Machine integers are modelled as `Nat`
(no arithmetic in the embedded code paths can overflow), fallible operations
return `Option`/`Except`, and panics are modelled explicitly.
-/

namespace Zenith

/-- Event header, from `src/core/src/event.rs` (`EventHeader`): a 32-bit
source identifier, a 64-bit sequence number, a 64-bit wall-clock timestamp in
nanoseconds and a 32-bit flags word. -/
structure EventHeader where
  source_id : Nat
  seq_no : Nat
  timestamp_ns : Nat
  flags : Nat
deriving DecidableEq

/-- Header construction, from `EventHeader::new`.  The Rust code reads the
wall clock; the embedding takes the clock reading `now` as an explicit
argument.  `flags` is set to `0`. -/
def EventHeader.new (source_id seq_no now : Nat) : EventHeader :=
  ⟨source_id, seq_no, now, 0⟩

/-- Event, from `src/core/src/event.rs` (`ZenithEvent`).  The payload is an
Arrow `RecordBatch` whose buffers carry the foreign descriptors' data; the
embedding records only whether a payload is present, which is what drives the
foreign release callback on destruction. -/
structure ZenithEvent where
  header : EventHeader
  payloadPresent : Bool
deriving DecidableEq

/-- Event construction, from `ZenithEvent::new`: wraps a header built by
`EventHeader::new` and a `Some` payload. -/
def ZenithEvent.new (source_id seq_no now : Nat) : ZenithEvent :=
  ⟨EventHeader.new source_id seq_no now, true⟩

/-- Error enumeration, from `src/core/src/error.rs` (`ZenithError`). -/
inductive ZenithError where
  | ArrowError
  | WasmError
  | BufferFull
  | IoError
deriving DecidableEq

/-- Model of `crossbeam::queue::ArrayQueue<T>`: a bounded FIFO queue of fixed
capacity.  The abstract state is the capacity and the list of queued items,
oldest first. -/
structure ArrayQueue (α : Type) where
  capacity : Nat
  items : List α
deriving DecidableEq

/-- Constructor of `ArrayQueue`.  `ArrayQueue::new(0)` panics in crossbeam
("capacity must be non-zero"); the panic is modelled as `none`. -/
def ArrayQueue.newChecked (α : Type) (capacity : Nat) : Option (ArrayQueue α) :=
  if capacity = 0 then none else some ⟨capacity, []⟩

/-- `ArrayQueue::push`: appends at the tail when occupancy is below capacity,
otherwise fails leaving the queue unchanged (the element is handed back to
the caller).  The returned pair is (status, queue afterwards). -/
def ArrayQueue.push {α : Type} (q : ArrayQueue α) (x : α) :
    Except Unit Unit × ArrayQueue α :=
  if q.items.length < q.capacity then
    (Except.ok (), ⟨q.capacity, q.items ++ [x]⟩)
  else
    (Except.error (), q)

/-- `ArrayQueue::pop`: removes the oldest item, or returns `none` on an empty
queue. -/
def ArrayQueue.pop {α : Type} (q : ArrayQueue α) : Option α × ArrayQueue α :=
  match q.items with
  | [] => (none, q)
  | x :: xs => (some x, ⟨q.capacity, xs⟩)

/-- `ArrayQueue::len`. -/
def ArrayQueue.len {α : Type} (q : ArrayQueue α) : Nat :=
  q.items.length

/-- Ring buffer, from `src/core/src/ring_buffer.rs` (`ZenithRingBuffer`): an
`Arc`-shared `ArrayQueue<ZenithEvent>`. -/
structure ZenithRingBuffer where
  queue : ArrayQueue ZenithEvent
deriving DecidableEq

/-- `ZenithRingBuffer::new`: builds the inner `ArrayQueue`; inherits the
panic on capacity `0` (modelled as `none`). -/
def ZenithRingBuffer.newChecked (capacity : Nat) : Option ZenithRingBuffer :=
  (ArrayQueue.newChecked ZenithEvent capacity).map ZenithRingBuffer.mk

/-- `ZenithRingBuffer::push`: delegates to `ArrayQueue::push`, mapping a
failure to `ZenithError::BufferFull`. -/
def ZenithRingBuffer.push (b : ZenithRingBuffer) (e : ZenithEvent) :
    Except ZenithError Unit × ZenithRingBuffer :=
  match b.queue.push e with
  | (Except.ok (), q) => (Except.ok (), ⟨q⟩)
  | (Except.error (), q) => (Except.error ZenithError.BufferFull, ⟨q⟩)

/-- `ZenithRingBuffer::pop`: delegates to `ArrayQueue::pop`. -/
def ZenithRingBuffer.pop (b : ZenithRingBuffer) :
    Option ZenithEvent × ZenithRingBuffer :=
  match b.queue.pop with
  | (o, q) => (o, ⟨q⟩)

/-- `ZenithRingBuffer::len`. -/
def ZenithRingBuffer.len (b : ZenithRingBuffer) : Nat :=
  b.queue.len

/-- `ZenithRingBuffer::is_empty`. -/
def ZenithRingBuffer.is_empty (b : ZenithRingBuffer) : Bool :=
  b.queue.items.isEmpty

/-- Iterated push: performs the pushes in order and returns the final buffer
when every push succeeded, `none` as soon as one fails.  This is the state a
producer reaches after a run of successful pushes. -/
def ZenithRingBuffer.pushAllOk (b : ZenithRingBuffer) :
    List ZenithEvent → Option ZenithRingBuffer
  | [] => some b
  | e :: es =>
    match b.push e with
    | (Except.ok (), b2) => b2.pushAllOk es
    | (Except.error _, _) => none

/-- Iterated pop: pops `n` times, collecting the observed results in order. -/
def ZenithRingBuffer.popN (b : ZenithRingBuffer) :
    Nat → List (Option ZenithEvent) × ZenithRingBuffer
  | 0 => ([], b)
  | Nat.succ n => (b.pop.1 :: (b.pop.2.popN n).1, (b.pop.2.popN n).2)

/-- Shorthand for the events used in concrete scenarios: source `0`,
sequence number `n`, clock reading `0`. -/
def mkEv (n : Nat) : ZenithEvent :=
  ZenithEvent.new 0 n 0

/-- A Rust panic (process abort at the FFI boundary). -/
inductive Panic where
  | panicked
deriving DecidableEq

/-- Fate of one foreign Arrow FFI descriptor across a `zenith_publish` call.
A descriptor struct owns one `release` callback which its `Drop`
implementation invokes exactly once, so the fate records whether and when
that single invocation happens:
`callerOwned` — the pointer was never read, no handoff occurred and the
caller keeps ownership; `inPublish` — the struct was dropped (release
invoked) before `zenith_publish` returned; `atEventDestroy` — ownership of
the descriptor's buffers moved into the constructed event, and the release
fires when that event is destroyed. -/
inductive DescFate where
  | callerOwned
  | inPublish
  | atEventDestroy
deriving DecidableEq

/-- Result of a terminating `zenith_publish` call: the returned status code,
the fate of the array descriptor, the fate of the schema descriptor, and the
ring buffer afterwards. -/
structure PublishResult where
  status : Int
  arrayFate : DescFate
  schemaFate : DescFate
  buffer : ZenithRingBuffer
deriving DecidableEq

/-- Embedding of `zenith_publish` from `src/core/src/lib.rs` lines 48-96.
The pointer arguments are abstracted to their null-ness; `descValid` is
whether `arrow::ffi::from_ffi` succeeds on the pair of descriptors (its
`Err` is the malformed-descriptor case); `rootStruct` is whether the
imported root array has `DataType::Struct` (otherwise
`StructArray::from(array_data)` asserts and panics).
Flow, line by line: any null pointer returns `-1` before any `ptr::read`,
so both descriptors stay caller-owned.  Otherwise both structs are read
(ownership handoff).  `from_ffi(array, &schema)` consumes `array` by value
and borrows `schema`: on `Err` the array is dropped inside `from_ffi` and
the local `schema` is dropped when the function returns, so both releases
fire before the `-4` return.  On success the array's buffers move into the
event's record batch (release deferred to event destruction) while the
local `schema` struct is still dropped at function exit; the event is then
pushed: `Ok` returns `0`, `Err` returns `-2` and drops the event inside the
call, firing the array release before the return. -/
def zenith_publish (handleNull arrayNull schemaNull : Bool)
    (descValid rootStruct : Bool) (source_id seq_no now : Nat)
    (buffer : ZenithRingBuffer) : Except Panic PublishResult :=
  if handleNull || arrayNull || schemaNull then
    Except.ok ⟨-1, DescFate.callerOwned, DescFate.callerOwned, buffer⟩
  else if !descValid then
    Except.ok ⟨-4, DescFate.inPublish, DescFate.inPublish, buffer⟩
  else if !rootStruct then
    Except.error Panic.panicked
  else
    match buffer.push (ZenithEvent.new source_id seq_no now) with
    | (Except.ok (), b2) =>
      Except.ok ⟨0, DescFate.atEventDestroy, DescFate.inPublish, b2⟩
    | (Except.error _, b2) =>
      Except.ok ⟨-2, DescFate.inPublish, DescFate.inPublish, b2⟩

/-- Engine state, from `src/core/src/engine.rs` (`ZenithEngine`): the shared
ring buffer and the shared atomic `running` flag.  The `WasmHost` field is
not captured by the consumer thread (the clone in `start` is commented out
in the source), so plugin state is modelled separately. -/
structure EngineModel where
  buffer : ZenithRingBuffer
  running : Bool
deriving DecidableEq

/-- `ZenithEngine::new`, from `src/core/src/engine.rs` lines 16-22.  The
struct literal evaluates `ZenithRingBuffer::new(buffer_size)` first, so a
zero capacity panics (modelled `Except.error`) before `WasmHost::new` runs;
`WasmHost::new` itself is modelled as succeeding (it only builds a wasmtime
configuration and linker), so the `Err` branch of the Rust `Result` does not
arise in the model.  The `running` flag starts `true`. -/
def ZenithEngine.newChecked (buffer_size : Nat) : Except Panic EngineModel :=
  match ZenithRingBuffer.newChecked buffer_size with
  | some b => Except.ok ⟨b, true⟩
  | none => Except.error Panic.panicked

/-- `ZenithEngine::shutdown`, from `src/core/src/engine.rs` lines 48-50:
stores `false` into the shared atomic `running` flag and nothing else. -/
def ZenithEngine.shutdown (e : EngineModel) : EngineModel :=
  { e with running := false }

/-- Embedding of `zenith_init` from `src/core/src/lib.rs` lines 22-33:
constructs the engine (propagating the capacity-0 panic), starts the
consumer thread and returns a boxed handle; `some` is a non-null handle,
`none` would be the null return of the `Err` branch, which the model of
`ZenithEngine::new` never takes. -/
def zenith_init (buffer_size : Nat) : Except Panic (Option EngineModel) :=
  match ZenithEngine.newChecked buffer_size with
  | Except.ok e => Except.ok (some e)
  | Except.error p => Except.error p

/-- Telemetry and dispatch log of the consumer thread.  `invocations`
records every plugin `on_event` call the loop makes (plugin identifier,
event source, event sequence number); `eventsProcessed` is the telemetry
counter the specification says dispatch updates. -/
structure ConsumerLog where
  invocations : List (Nat × Nat × Nat)
  eventsProcessed : Nat
deriving DecidableEq

/-- What one iteration of the consumer loop did. -/
inductive ConsumerStep where
  | exited
  | popped (e : ZenithEvent)
  | parked
deriving DecidableEq

/-- One iteration of the consumer loop spawned by `ZenithEngine::start`,
from `src/core/src/engine.rs` lines 33-45: if the `running` flag is false
the loop exits; otherwise it pops the buffer; on `Some(_event)` the body is
empty (the dispatch to plugins is only a comment in the source), so the
event is dropped and neither the invocation log nor the telemetry counter
changes; on `None` the thread parks for 10 microseconds.  `loadedPlugins`
is the list of loaded plugin identifiers, which the loop never consults. -/
def consumerIteration (loadedPlugins : List Nat)
    (buffer : ZenithRingBuffer) (running : Bool) (log : ConsumerLog) :
    ZenithRingBuffer × ConsumerLog × ConsumerStep :=
  if !running then
    (buffer, log, ConsumerStep.exited)
  else
    match buffer.pop with
    | (some e, b2) => (b2, log, ConsumerStep.popped e)
    | (none, _) => (buffer, log, ConsumerStep.parked)

/-- Actions performed by `zenith_free`, in order. -/
inductive FreeAction where
  | signalShutdown
  | joinConsumer
  | releaseEngine
deriving DecidableEq

/-- Embedding of `zenith_free` from `src/core/src/lib.rs` lines 37-43 as the
ordered list of actions it performs: on a null handle, nothing; otherwise it
calls `engine.shutdown()` (the atomic store of `false`) and then drops the
`Box`, releasing the engine.  The `JoinHandle` of the consumer thread was
discarded inside `ZenithEngine::start`, so no join occurs anywhere. -/
def zenith_free_trace (handleNull : Bool) : List FreeAction :=
  if handleNull then []
  else [FreeAction.signalShutdown, FreeAction.releaseEngine]

/-- Teardown of the ring buffer when the last `Arc` reference drops: every
event still queued is destroyed, and destroying an event with a payload
fires its foreign array release callback.  Returns the multiset of destroyed
events (oldest first). -/
def bufferTeardownDestroys (b : ZenithRingBuffer) : List ZenithEvent :=
  b.queue.items

/-- WebAssembly core value types, as used by wasmtime typed functions. -/
inductive WasmValTy where
  | i32
  | i64
deriving DecidableEq

/-- A WebAssembly function signature: parameter and result types. -/
structure WasmFuncTy where
  params : List WasmValTy
  results : List WasmValTy
deriving DecidableEq

/-- The exports of an instantiated module: name/signature pairs, in export
order. -/
structure WasmInstance where
  exports : List (String × WasmFuncTy)
deriving DecidableEq

/-- Model of wasmtime's `Instance::get_typed_func::<P, R>(name)`: succeeds
exactly when the instance exports a function under `name` whose signature
equals the requested one, and fails otherwise (missing export or type
mismatch). -/
def getTypedFunc (inst : WasmInstance) (name : String) (ty : WasmFuncTy) :
    Option WasmFuncTy :=
  match inst.exports.lookup name with
  | some sig => if sig = ty then some sig else none
  | none => none

deriving instance DecidableEq for Except

/-- Outcome of `WasmPlugin::trigger`: whether the guest function was
actually called, and the Rust-level result (`Except.error` models the `?`
propagation of a wasm trap). -/
structure TriggerOutcome where
  called : Bool
  result : Except ZenithError Unit
deriving DecidableEq

/-- Embedding of `WasmPlugin::trigger` from `src/core/src/wasm_host.rs`
lines 49-64.  The source requests
`get_typed_func::<(), ()>(&mut store, "on_event")` — the nullary,
result-less signature — and takes no source or sequence arguments.  When the
typed lookup succeeds it calls the function (a trap propagates as an error);
when it fails (export missing, or present with a different signature) the
plugin is treated as passive and `Ok(())` is returned without any call.
`traps` is whether the guest call, if made, traps. -/
def WasmPlugin.trigger (inst : WasmInstance) (traps : Bool) : TriggerOutcome :=
  match getTypedFunc inst "on_event" ⟨[], []⟩ with
  | some _ =>
    if traps then ⟨true, Except.error ZenithError.WasmError⟩
    else ⟨true, Except.ok ()⟩
  | none => ⟨false, Except.ok ()⟩

/-- Exports of the repository's own plugin
`src/plugins/simple_filter/src/lib.rs`: a single function
`on_event(source_id: u32, seq_no: u64) -> i32`. -/
def simpleFilterInstance : WasmInstance :=
  ⟨[("on_event", ⟨[WasmValTy.i32, WasmValTy.i64], [WasmValTy.i32]⟩)]⟩

/-- The guest logic of `simple_filter`'s `on_event`: returns `1` (accept)
for even sequence numbers and `0` (drop) for odd ones. -/
def simple_filter_on_event (source_id seq_no : Nat) : Int :=
  if seq_no % 2 = 0 then 1 else 0

/-- Scheduler configuration, from `src/zenith-scheduler/src/config.rs`
(`SchedulerConfig`). -/
structure SchedulerConfig where
  grpc_address : String
  http_address : String
  heartbeat_timeout_seconds : Int
  schedule_interval_ms : Nat
  max_schedule_batch : Nat
  backfill_enabled : Bool
  topology_aware : Bool
deriving DecidableEq

/-- The `Default` instance of `SchedulerConfig`, from
`src/zenith-scheduler/src/config.rs` lines 24-36. -/
def SchedulerConfig.defaultConfig : SchedulerConfig :=
  ⟨"[::]:50051", "0.0.0.0:8080", 60, 1000, 100, true, true⟩

/-- The TCP port encoded in a listen address string: the digits after the
last colon, read as a decimal number. -/
def addressPort (s : String) : Option Nat :=
  let tail := s.toList.foldl (fun acc c => if c = ':' then [] else acc ++ [c]) []
  if tail.isEmpty || !(tail.all Char.isDigit) then none
  else some (tail.foldl (fun a c => a * 10 + (c.toNat - 48)) 0)

/-- Modelled from the spec: a bundle of node-local resources (accelerators,
CPU cores, host memory bytes) as debited by a reservation entry
(`src/zenith-scheduler/src/scheduler.rs` and `node.rs` are declared in
`lib.rs` but absent from the sources; sections 3 "Reservation" and 4.5
step 4 of the specification describe the data). -/
structure Resources where
  gpus : Nat
  cpus : Nat
  memBytes : Nat
deriving DecidableEq

/-- Componentwise sum of resource bundles. -/
def Resources.add (a b : Resources) : Resources :=
  ⟨a.gpus + b.gpus, a.cpus + b.cpus, a.memBytes + b.memBytes⟩

instance : Add Resources := ⟨Resources.add⟩

/-- Componentwise comparison: `a` fits within `b`. -/
def Resources.fitsIn (a b : Resources) : Bool :=
  a.gpus ≤ b.gpus && a.cpus ≤ b.cpus && a.memBytes ≤ b.memBytes

/-- Modelled from the spec: a worker node as the scheduler's registry sees
it — identifier, total capacity, currently committed allocation, and
whether the node is live (`Active` with a fresh heartbeat). -/
structure SchedNode where
  nodeId : Nat
  capacity : Resources
  allocated : Resources
  alive : Bool
deriving DecidableEq

/-- The free resources of a node (capacity minus allocation,
componentwise truncated subtraction). -/
def SchedNode.free (n : SchedNode) : Resources :=
  ⟨n.capacity.gpus - n.allocated.gpus, n.capacity.cpus - n.allocated.cpus,
    n.capacity.memBytes - n.allocated.memBytes⟩

/-- Modelled from the spec: job lifecycle states (section 3 "Job"). -/
inductive JobState where
  | Queued
  | Placing
  | Running
  | Completed
  | Failed
  | Cancelled
deriving DecidableEq

/-- Modelled from the spec: debit one reservation entry against the first
registry node carrying `nid`.  The debit is refused (`none`) when the node
is absent, its heartbeat has lapsed, or the requested bundle does not fit in
its free capacity — the mid-commit failure cases of section 4.5. -/
def debitNode (reg : List SchedNode) (nid : Nat) (r : Resources) :
    Option (List SchedNode) :=
  match reg with
  | [] => none
  | n :: rest =>
    if n.nodeId = nid then
      if n.alive && r.fitsIn n.free then
        some ({ n with allocated := n.allocated + r } :: rest)
      else
        none
    else
      (debitNode rest nid r).map (fun rest2 => n :: rest2)

/-- Modelled from the spec: the commit step of a gang reservation — debit
every entry in turn, failing as soon as one entry cannot be debited. -/
def commitGang (reg : List SchedNode) :
    List (Nat × Resources) → Option (List SchedNode)
  | [] => some reg
  | (nid, r) :: ds =>
    match debitNode reg nid r with
    | some reg2 => commitGang reg2 ds
    | none => none

/-- Outcome of a placement attempt: the registry afterwards, the job state
afterwards, and the created reservation if any. -/
structure GangOutcome where
  registry : List SchedNode
  jobState : JobState
  reservation : Option (List (Nat × Resources))
deriving DecidableEq

/-- Modelled from the spec: the atomic gang-reservation step of section 4.5
step 4 — attempt to debit all required resources across all selected nodes;
on success the reservation is created and the job moves to `Running`; on any
mid-commit failure every partial debit is rolled back (the registry the
caller keeps is the original one) and the job remains `Queued`. -/
def tryGangReserve (reg : List SchedNode) (ds : List (Nat × Resources)) :
    GangOutcome :=
  match commitGang reg ds with
  | some reg2 => ⟨reg2, JobState.Running, some ds⟩
  | none => ⟨reg, JobState.Queued, none⟩

/-- The total demand a reservation request places on node `nid`: the sum of
the entries naming it. -/
def demandOn (ds : List (Nat × Resources)) (nid : Nat) : Resources :=
  match ds with
  | [] => ⟨0, 0, 0⟩
  | (m, r) :: rest =>
    if m = nid then r + demandOn rest nid else demandOn rest nid

/-! ## Helper lemmas -/

/-- Closed form of `ZenithRingBuffer.push`. -/
theorem push_eq (b : ZenithRingBuffer) (e : ZenithEvent) :
    b.push e =
      if b.queue.items.length < b.queue.capacity then
        (Except.ok (), ⟨⟨b.queue.capacity, b.queue.items ++ [e]⟩⟩)
      else
        (Except.error ZenithError.BufferFull, b) := by
  unfold ZenithRingBuffer.push ArrayQueue.push
  by_cases h : b.queue.items.length < b.queue.capacity <;> simp [h]

/-- A run of successful pushes appends the pushed events, in order, to the
queued items, and leaves the capacity unchanged. -/
theorem pushAllOk_append (es : List ZenithEvent) :
    ∀ b b' : ZenithRingBuffer, b.pushAllOk es = some b' →
      b'.queue.capacity = b.queue.capacity ∧
      b'.queue.items = b.queue.items ++ es := by
  induction es with
  | nil =>
    intro b b' h
    simp only [ZenithRingBuffer.pushAllOk, Option.some.injEq] at h
    subst h
    simp
  | cons e es ih =>
    intro b b' h
    rw [ZenithRingBuffer.pushAllOk, push_eq] at h
    by_cases hlt : b.queue.items.length < b.queue.capacity
    · simp only [hlt, if_true] at h
      obtain ⟨hc, hi⟩ := ih _ _ h
      refine ⟨by simpa using hc, ?_⟩
      simp only [hi]
      simp
    · simp [hlt] at h

/-- Popping `k` times from a buffer holding at least `k` items yields the
oldest `k` items in order and leaves the rest queued. -/
theorem popN_take (k : Nat) :
    ∀ b : ZenithRingBuffer, k ≤ b.queue.items.length →
      (b.popN k).1 = (b.queue.items.take k).map some ∧
      (b.popN k).2 = ⟨⟨b.queue.capacity, b.queue.items.drop k⟩⟩ := by
  induction k with
  | zero => intro b _; simp [ZenithRingBuffer.popN]
  | succ k ih =>
    intro b h
    match hb : b.queue.items with
    | [] => rw [hb] at h; simp at h
    | x :: xs =>
      have hpop : b.pop = (some x, ⟨⟨b.queue.capacity, xs⟩⟩) := by
        unfold ZenithRingBuffer.pop ArrayQueue.pop
        rw [hb]
      have hlen : k ≤ xs.length := by
        rw [hb] at h
        exact Nat.le_of_succ_le_succ h
      have := ih ⟨⟨b.queue.capacity, xs⟩⟩ hlen
      rw [ZenithRingBuffer.popN, hpop]
      simpa using this

/-- Closed form of `ZenithRingBuffer.newChecked` on a non-zero capacity. -/
theorem newChecked_pos (c : Nat) (hc : 1 ≤ c) :
    ZenithRingBuffer.newChecked c = some ⟨⟨c, []⟩⟩ := by
  have : c ≠ 0 := Nat.one_le_iff_ne_zero.mp hc
  simp [ZenithRingBuffer.newChecked, ArrayQueue.newChecked, this]

/-- The empty resource bundle is right-neutral for the componentwise sum. -/
theorem Resources.add_empty (a : Resources) : a + (⟨0, 0, 0⟩ : Resources) = a := by
  cases a
  show Resources.add _ _ = _
  simp [Resources.add]

/-- The componentwise sum of resource bundles is associative. -/
theorem Resources.add_associative (a b c : Resources) :
    a + b + c = a + (b + c) := by
  cases a; cases b; cases c
  show Resources.add (Resources.add _ _) _ = Resources.add _ (Resources.add _ _)
  simp [Resources.add, Nat.add_assoc]

/-- Updating the allocation of an absent node identifier is the identity. -/
theorem map_update_id (nid : Nat) (r : Resources) :
    ∀ l : List SchedNode, (∀ m ∈ l, m.nodeId ≠ nid) →
      l.map (fun n => if n.nodeId = nid
          then { n with allocated := n.allocated + r } else n) = l := by
  intro l
  induction l with
  | nil => intro _; rfl
  | cons n rest ih =>
    intro hm
    have hn : n.nodeId ≠ nid := hm n (List.mem_cons_self n rest)
    simp only [List.map_cons, if_neg hn]
    rw [ih (fun m hmem => hm m (List.mem_cons_of_mem n hmem))]

/-- A successful single debit on a registry with distinct node identifiers
adds the debited bundle to exactly the named node. -/
theorem debitNode_map (nid : Nat) (r : Resources) :
    ∀ reg reg2 : List SchedNode, (reg.map SchedNode.nodeId).Nodup →
      debitNode reg nid r = some reg2 →
      reg2 = reg.map (fun n => if n.nodeId = nid
        then { n with allocated := n.allocated + r } else n) := by
  intro reg
  induction reg with
  | nil => intro reg2 _ h; simp [debitNode] at h
  | cons n rest ih =>
    intro reg2 hnodup h
    rw [debitNode] at h
    by_cases hid : n.nodeId = nid
    · rw [if_pos hid] at h
      by_cases hfit : n.alive && r.fitsIn n.free
      · rw [if_pos hfit, Option.some.injEq] at h
        subst h
        have hrest : ∀ m ∈ rest, m.nodeId ≠ nid := by
          intro m hmem
          have hmemid : m.nodeId ∈ rest.map SchedNode.nodeId :=
            List.mem_map_of_mem SchedNode.nodeId hmem
          have hne : n.nodeId ∉ rest.map SchedNode.nodeId :=
            (List.nodup_cons.mp (by simpa using hnodup)).1
          intro hcontra
          exact hne (by rw [← hid] at hcontra; rw [← hcontra]; exact hmemid)
        simp only [List.map_cons, if_pos hid]
        rw [map_update_id nid r rest hrest]
      · rw [if_neg hfit] at h
        exact Option.noConfusion h
    · rw [if_neg hid] at h
      match hrec : debitNode rest nid r with
      | none => rw [hrec] at h; exact Option.noConfusion h
      | some rest2 =>
        rw [hrec] at h
        simp only [Option.map_some', Option.some.injEq] at h
        subst h
        have hnodup2 : (rest.map SchedNode.nodeId).Nodup :=
          (List.nodup_cons.mp (by simpa using hnodup)).2
        simp only [List.map_cons, if_neg hid]
        rw [ih rest2 hnodup2 hrec]

/-- A successful debit preserves the sequence of node identifiers. -/
theorem debitNode_ids (nid : Nat) (r : Resources) :
    ∀ reg reg2 : List SchedNode, debitNode reg nid r = some reg2 →
      reg2.map SchedNode.nodeId = reg.map SchedNode.nodeId := by
  intro reg
  induction reg with
  | nil => intro reg2 h; simp [debitNode] at h
  | cons n rest ih =>
    intro reg2 h
    rw [debitNode] at h
    by_cases hid : n.nodeId = nid
    · rw [if_pos hid] at h
      by_cases hfit : n.alive && r.fitsIn n.free
      · rw [if_pos hfit, Option.some.injEq] at h
        subst h
        simp
      · rw [if_neg hfit] at h; exact Option.noConfusion h
    · rw [if_neg hid] at h
      match hrec : debitNode rest nid r with
      | none => rw [hrec] at h; exact Option.noConfusion h
      | some rest2 =>
        rw [hrec] at h
        simp only [Option.map_some', Option.some.injEq] at h
        subst h
        simp [ih rest2 hrec]

/-- A successful gang commit on a registry with distinct node identifiers
adds to every node exactly the total demand the request places on it. -/
theorem commitGang_map (ds : List (Nat × Resources)) :
    ∀ reg reg2 : List SchedNode, (reg.map SchedNode.nodeId).Nodup →
      commitGang reg ds = some reg2 →
      reg2 = reg.map (fun n =>
        { n with allocated := n.allocated + demandOn ds n.nodeId }) := by
  induction ds with
  | nil =>
    intro reg reg2 _ h
    simp only [commitGang, Option.some.injEq] at h
    subst h
    have hmap : reg.map (fun n =>
        { n with allocated := n.allocated + demandOn [] n.nodeId }) = reg.map id := by
      apply List.map_congr_left
      intro n _
      show ({ n with allocated := n.allocated + (⟨0, 0, 0⟩ : Resources) }) = n
      rw [Resources.add_empty]
    rw [hmap, List.map_id]
  | cons p ds ih =>
    intro reg reg2 hnodup h
    match p with
    | (nid, r) =>
      rw [commitGang] at h
      match hdeb : debitNode reg nid r with
      | none => rw [hdeb] at h; exact Option.noConfusion h
      | some reg1 =>
        rw [hdeb] at h
        have hreg1 : reg1 = reg.map (fun n => if n.nodeId = nid
            then { n with allocated := n.allocated + r } else n) :=
          debitNode_map nid r reg reg1 hnodup hdeb
        have hids : reg1.map SchedNode.nodeId = reg.map SchedNode.nodeId :=
          debitNode_ids nid r reg reg1 hdeb
        have hnodup1 : (reg1.map SchedNode.nodeId).Nodup := by
          rw [hids]; exact hnodup
        have h2 := ih reg1 reg2 hnodup1 h
        rw [h2, hreg1, List.map_map]
        apply List.map_congr_left
        intro n _
        simp only [Function.comp_apply]
        by_cases hid : n.nodeId = nid
        · subst hid
          simp [demandOn, Resources.add_associative]
        · have hid2 : ¬ nid = n.nodeId := fun hcontra => hid hcontra.symm
          simp [demandOn, hid, hid2]

/-! ## Claim theorems -/

/-- C2: for every ring buffer of capacity `N ≥ 1`, after `k` successful
pushes and zero pops, if `k < N` the next push succeeds (appending the
event), if `k = N` the next push returns `BufferFull` and leaves the buffer
unmodified, and push never succeeds when occupancy equals `N`. -/
theorem ring_buffer_capacity_bound (N : Nat) (hN : 1 ≤ N)
    (es : List ZenithEvent) (b0 b : ZenithRingBuffer)
    (h0 : ZenithRingBuffer.newChecked N = some b0)
    (h : b0.pushAllOk es = some b) :
    (es.length < N → ∀ e, (b.push e).1 = Except.ok () ∧
      (b.push e).2.queue.items = es ++ [e]) ∧
    (es.length = N → ∀ e,
      (b.push e).1 = Except.error ZenithError.BufferFull ∧ (b.push e).2 = b) ∧
    (∀ e, b.len = N → (b.push e).1 ≠ Except.ok ()) := by
  rw [newChecked_pos N hN, Option.some.injEq] at h0
  subst h0
  obtain ⟨hc, hi⟩ := pushAllOk_append es _ _ h
  simp only [List.nil_append] at hi
  refine ⟨?_, ?_, ?_⟩
  · intro hk e
    rw [push_eq]
    simp [hi, hc, hk]
  · intro hk e
    rw [push_eq]
    simp [hi, hc, hk]
  · intro e hlen
    have hlen2 : b.queue.items.length = N := hlen
    rw [push_eq]
    simp [hlen2, hc]

/-- Witness for the capacity-bound theorem: capacity `1`, one successful
push, then a failing push. -/
theorem ring_buffer_capacity_bound_witness :
    ((ZenithRingBuffer.mk ⟨1, [mkEv 1]⟩).push (mkEv 2)).1 =
      Except.error ZenithError.BufferFull ∧
    ((ZenithRingBuffer.mk ⟨1, [mkEv 1]⟩).push (mkEv 2)).2 =
      ZenithRingBuffer.mk ⟨1, [mkEv 1]⟩ :=
  (ring_buffer_capacity_bound 1 (by decide) [mkEv 1]
    (ZenithRingBuffer.mk ⟨1, []⟩) (ZenithRingBuffer.mk ⟨1, [mkEv 1]⟩)
    (by decide) (by decide)).2.1 (by decide) (mkEv 2)

/-- C3: the ring buffer is FIFO for a single producer — after any run of
successful pushes, popping returns the pushed events oldest-first (and `pop`
on an empty buffer returns `none`) — together with the concrete S1 wrap
scenario: with `N = 4`, push `1..4`, pop `1` then `2`, push `5` and `6`
successfully, fail to push `7` with `BufferFull`, then pop `3,4,5,6`. -/
theorem ring_buffer_fifo_order :
    (∀ (N : Nat) (es : List ZenithEvent) (b : ZenithRingBuffer) (k : Nat),
      (ZenithRingBuffer.mk ⟨N, []⟩).pushAllOk es = some b → k ≤ es.length →
      (b.popN k).1 = (es.take k).map some ∧
      (b.popN k).2.queue.items = es.drop k) ∧
    (∀ b : ZenithRingBuffer, b.queue.items = [] → b.pop.1 = none) ∧
    ((ZenithRingBuffer.mk ⟨4, []⟩).pushAllOk
        [mkEv 1, mkEv 2, mkEv 3, mkEv 4] =
      some (ZenithRingBuffer.mk ⟨4, [mkEv 1, mkEv 2, mkEv 3, mkEv 4]⟩)) ∧
    ((ZenithRingBuffer.mk ⟨4, [mkEv 1, mkEv 2, mkEv 3, mkEv 4]⟩).popN 2 =
      ([some (mkEv 1), some (mkEv 2)],
        ZenithRingBuffer.mk ⟨4, [mkEv 3, mkEv 4]⟩)) ∧
    ((ZenithRingBuffer.mk ⟨4, [mkEv 3, mkEv 4]⟩).pushAllOk [mkEv 5, mkEv 6] =
      some (ZenithRingBuffer.mk ⟨4, [mkEv 3, mkEv 4, mkEv 5, mkEv 6]⟩)) ∧
    ((ZenithRingBuffer.mk ⟨4, [mkEv 3, mkEv 4, mkEv 5, mkEv 6]⟩).push (mkEv 7) =
      (Except.error ZenithError.BufferFull,
        ZenithRingBuffer.mk ⟨4, [mkEv 3, mkEv 4, mkEv 5, mkEv 6]⟩)) ∧
    ((ZenithRingBuffer.mk ⟨4, [mkEv 3, mkEv 4, mkEv 5, mkEv 6]⟩).popN 4 =
      ([some (mkEv 3), some (mkEv 4), some (mkEv 5), some (mkEv 6)],
        ZenithRingBuffer.mk ⟨4, []⟩)) := by
  refine ⟨?_, ?_, by decide, by decide, by decide, by decide, by decide⟩
  · intro N es b k h hk
    obtain ⟨hc, hi⟩ := pushAllOk_append es _ _ h
    simp only [List.nil_append] at hi
    have hk2 : k ≤ b.queue.items.length := by rw [hi]; exact hk
    obtain ⟨h1, h2⟩ := popN_take k b hk2
    refine ⟨by rw [h1, hi], ?_⟩
    rw [h2]
    simp [hi]
  · intro b hb
    simp [ZenithRingBuffer.pop, ArrayQueue.pop, hb]

/-- Witness for the FIFO theorem: two queued events, one pop yields the
older one. -/
theorem ring_buffer_fifo_order_witness :
    ((ZenithRingBuffer.mk ⟨2, [mkEv 1, mkEv 2]⟩).popN 1).1 = [some (mkEv 1)] :=
  ((ring_buffer_fifo_order.1 2 [mkEv 1, mkEv 2]
    (ZenithRingBuffer.mk ⟨2, [mkEv 1, mkEv 2]⟩) 1
    (by decide) (by decide)).1).trans (by decide)

/-- C9: the scheduler's default configuration has
`schedule_interval_ms = 1000`, `max_schedule_batch = 100` and
`heartbeat_timeout_seconds = 60`, with the gRPC surface on port 50051 and
the HTTP surface on port 8080. -/
theorem scheduler_default_config :
    SchedulerConfig.defaultConfig.schedule_interval_ms = 1000 ∧
    SchedulerConfig.defaultConfig.max_schedule_batch = 100 ∧
    SchedulerConfig.defaultConfig.heartbeat_timeout_seconds = 60 ∧
    addressPort SchedulerConfig.defaultConfig.grpc_address = some 50051 ∧
    addressPort SchedulerConfig.defaultConfig.http_address = some 8080 := by
  refine ⟨rfl, rfl, rfl, ?_, ?_⟩ <;> decide

/-- C10: for every capacity `c ≥ 1`, `ZenithRingBuffer::new(c)` yields an
empty buffer (`len = 0`, `is_empty`), but for `c = 0` the underlying queue
constructor panics, so `zenith_init(0)` panics instead of returning a null
handle. -/
theorem init_zero_capacity_panics :
    (∀ c : Nat, 1 ≤ c →
      ZenithRingBuffer.newChecked c = some (ZenithRingBuffer.mk ⟨c, []⟩) ∧
      (ZenithRingBuffer.mk (⟨c, []⟩ : ArrayQueue ZenithEvent)).len = 0 ∧
      (ZenithRingBuffer.mk (⟨c, []⟩ : ArrayQueue ZenithEvent)).is_empty = true) ∧
    ZenithRingBuffer.newChecked 0 = none ∧
    zenith_init 0 = Except.error Panic.panicked := by
  refine ⟨?_, by decide, by decide⟩
  intro c hc
  exact ⟨newChecked_pos c hc, rfl, rfl⟩

/-- Witness for the capacity theorem at `c = 2`. -/
theorem init_zero_capacity_panics_witness :
    ZenithRingBuffer.newChecked 2 = some (ZenithRingBuffer.mk ⟨2, []⟩) :=
  (init_zero_capacity_panics.1 2 (by decide)).1

/-- Closed form of `zenith_publish`. -/
theorem zenith_publish_eq (hN aN sN dv rs : Bool) (sid seq now : Nat)
    (buf : ZenithRingBuffer) :
    zenith_publish hN aN sN dv rs sid seq now buf =
      if hN || aN || sN then
        Except.ok ⟨-1, DescFate.callerOwned, DescFate.callerOwned, buf⟩
      else if !dv then
        Except.ok ⟨-4, DescFate.inPublish, DescFate.inPublish, buf⟩
      else if !rs then
        Except.error Panic.panicked
      else if buf.queue.items.length < buf.queue.capacity then
        Except.ok ⟨0, DescFate.atEventDestroy, DescFate.inPublish,
          ⟨⟨buf.queue.capacity,
            buf.queue.items ++ [ZenithEvent.new sid seq now]⟩⟩⟩
      else
        Except.ok ⟨-2, DescFate.inPublish, DescFate.inPublish, buf⟩ := by
  unfold zenith_publish
  rw [push_eq]
  by_cases h : buf.queue.items.length < buf.queue.capacity <;> simp [h]

/-- C4: `zenith_publish` returns exactly the status codes `0` (event
constructed and enqueued), `-1` (some pointer argument null), `-2` (buffer
full) and `-4` (malformed descriptors); on a null argument nothing is
released and the buffer is untouched (no handoff occurs). -/
theorem publish_status_codes (hN aN sN dv rs : Bool) (sid seq now : Nat)
    (buf : ZenithRingBuffer) :
    ((hN || aN || sN) = true →
      zenith_publish hN aN sN dv rs sid seq now buf =
        Except.ok ⟨-1, DescFate.callerOwned, DescFate.callerOwned, buf⟩) ∧
    ((hN || aN || sN) = false → dv = false →
      zenith_publish hN aN sN dv rs sid seq now buf =
        Except.ok ⟨-4, DescFate.inPublish, DescFate.inPublish, buf⟩) ∧
    ((hN || aN || sN) = false → dv = true → rs = true →
      buf.queue.items.length < buf.queue.capacity →
      zenith_publish hN aN sN dv rs sid seq now buf =
        Except.ok ⟨0, DescFate.atEventDestroy, DescFate.inPublish,
          ⟨⟨buf.queue.capacity,
            buf.queue.items ++ [ZenithEvent.new sid seq now]⟩⟩⟩) ∧
    ((hN || aN || sN) = false → dv = true → rs = true →
      ¬ buf.queue.items.length < buf.queue.capacity →
      zenith_publish hN aN sN dv rs sid seq now buf =
        Except.ok ⟨-2, DescFate.inPublish, DescFate.inPublish, buf⟩) ∧
    (∀ r : PublishResult,
      zenith_publish hN aN sN dv rs sid seq now buf = Except.ok r →
      r.status = 0 ∨ r.status = -1 ∨ r.status = -2 ∨ r.status = -4) := by
  refine ⟨?_, ?_, ?_, ?_, ?_⟩
  · intro h1
    rw [zenith_publish_eq]
    simp [h1]
  · intro h1 h2
    rw [zenith_publish_eq]
    simp [h1, h2]
  · intro h1 h2 h3 h4
    rw [zenith_publish_eq]
    simp [h1, h2, h3, h4]
  · intro h1 h2 h3 h4
    rw [zenith_publish_eq]
    simp [h1, h2, h3, h4]
  · intro r hr
    rw [zenith_publish_eq] at hr
    by_cases h1 : (hN || aN || sN) = true
    · simp [h1] at hr
      rw [← hr]
      simp
    · have h1f : (hN || aN || sN) = false := by
        cases hnn : (hN || aN || sN) with
        | false => rfl
        | true => exact absurd hnn h1
      by_cases h2 : dv = true
      · by_cases h3 : rs = true
        · by_cases h4 : buf.queue.items.length < buf.queue.capacity
          · simp [h1f, h2, h3, h4] at hr
            rw [← hr]
            simp
          · simp [h1f, h2, h3, h4] at hr
            rw [← hr]
            simp
        · have h3f : rs = false := by
            cases hrs : rs with
            | false => rfl
            | true => exact absurd hrs h3
          simp [h1f, h2, h3f] at hr
      · have h2f : dv = false := by
          cases hdv : dv with
          | false => rfl
          | true => exact absurd hdv h2
        simp [h1f, h2f] at hr
        rw [← hr]
        simp

/-- Witness for the status-code theorem: a successful publish of event
`(source 3, seq 4)` into an empty one-slot buffer returns `0`. -/
theorem publish_status_codes_witness :
    zenith_publish false false false true true 3 4 5
        (ZenithRingBuffer.mk ⟨1, []⟩) =
      Except.ok ⟨0, DescFate.atEventDestroy, DescFate.inPublish,
        ZenithRingBuffer.mk ⟨1, [ZenithEvent.new 3 4 5]⟩⟩ :=
  (publish_status_codes false false false true true 3 4 5
    (ZenithRingBuffer.mk ⟨1, []⟩)).2.2.1 rfl rfl rfl (by decide)

/-- C5 counterexample: a call with non-null arguments that succeeds
(status `0`) yet whose schema descriptor's release fires before
`zenith_publish` returns, not when the event is destroyed — the schema
struct is only borrowed by `from_ffi` and is dropped at function exit. -/
theorem publish_release_counterexample :
    zenith_publish false false false true true 1 2 0
        (ZenithRingBuffer.mk ⟨1, []⟩) =
      Except.ok ⟨0, DescFate.atEventDestroy, DescFate.inPublish,
        ZenithRingBuffer.mk ⟨1, [ZenithEvent.new 1 2 0]⟩⟩ ∧
    DescFate.inPublish ≠ DescFate.atEventDestroy := by
  exact ⟨by decide, by decide⟩

/-- C5 amended: for every `zenith_publish` call with non-null arguments
that returns, each foreign descriptor's release callback is invoked exactly
once — never zero times, never twice: the schema descriptor's release fires
before publish returns on every path, while the array descriptor's release
fires at event destruction on success (status `0`) and before publish
returns on a malformed-descriptor failure (status `-4`). -/
theorem publish_release_exactly_once (hN aN sN dv rs : Bool)
    (sid seq now : Nat) (buf : ZenithRingBuffer) (r : PublishResult)
    (hnull : (hN || aN || sN) = false)
    (h : zenith_publish hN aN sN dv rs sid seq now buf = Except.ok r) :
    (r.arrayFate = DescFate.inPublish ∨
      r.arrayFate = DescFate.atEventDestroy) ∧
    r.schemaFate = DescFate.inPublish ∧
    (r.status = 0 → r.arrayFate = DescFate.atEventDestroy) ∧
    (r.status = -4 → r.arrayFate = DescFate.inPublish) := by
  rw [zenith_publish_eq] at h
  by_cases h2 : dv = true
  · by_cases h3 : rs = true
    · by_cases h4 : buf.queue.items.length < buf.queue.capacity
      · simp [hnull, h2, h3, h4] at h
        rw [← h]
        simp
      · simp [hnull, h2, h3, h4] at h
        rw [← h]
        simp
    · have h3f : rs = false := by
        cases hrs : rs with
        | false => rfl
        | true => exact absurd hrs h3
      simp [hnull, h2, h3f] at h
  · have h2f : dv = false := by
      cases hdv : dv with
      | false => rfl
      | true => exact absurd hdv h2
    simp [hnull, h2f] at h
    rw [← h]
    simp

/-- Witness for the exactly-once theorem: the malformed-descriptor path. -/
theorem publish_release_exactly_once_witness :
    (DescFate.inPublish = DescFate.inPublish ∨
      DescFate.inPublish = DescFate.atEventDestroy) ∧
    DescFate.inPublish = DescFate.inPublish ∧
    ((-4 : Int) = 0 → DescFate.inPublish = DescFate.atEventDestroy) ∧
    ((-4 : Int) = -4 → DescFate.inPublish = DescFate.inPublish) :=
  publish_release_exactly_once false false false false false 0 0 0
    (ZenithRingBuffer.mk ⟨1, []⟩)
    ⟨-4, DescFate.inPublish, DescFate.inPublish,
      ZenithRingBuffer.mk ⟨1, []⟩⟩ rfl (by decide)

/-- C6 (evaluation of the code at the failing input): with plugin `0`
loaded, the running consumer pops the queued event `(source 7, seq 0)` and
discards it — the invocation log stays empty and the telemetry counter
stays `0`, although the claim requires an `on_event` call per loaded plugin
and a telemetry record. -/
theorem consumer_dispatch_missing :
    consumerIteration [0]
        (ZenithRingBuffer.mk ⟨4, [ZenithEvent.new 7 0 0]⟩) true ⟨[], 0⟩ =
      (ZenithRingBuffer.mk ⟨4, []⟩, ⟨[], 0⟩,
        ConsumerStep.popped (ZenithEvent.new 7 0 0)) := by decide

/-- C7 (evaluation of the code at the failing input): the repository's own
`simple_filter` plugin exports `on_event(source_id: u32, seq_no: u64) ->
i32`, but `WasmPlugin::trigger` requests the typed signature `() -> ()`, so
the lookup fails, the plugin is silently treated as passive and its filter
logic (drop odd sequence numbers) is never invoked. -/
theorem trigger_signature_mismatch :
    getTypedFunc simpleFilterInstance "on_event" ⟨[], []⟩ = none ∧
    WasmPlugin.trigger simpleFilterInstance false = ⟨false, Except.ok ()⟩ ∧
    WasmPlugin.trigger simpleFilterInstance true = ⟨false, Except.ok ()⟩ ∧
    getTypedFunc simpleFilterInstance "on_event"
        ⟨[WasmValTy.i32, WasmValTy.i64], [WasmValTy.i32]⟩ =
      some ⟨[WasmValTy.i32, WasmValTy.i64], [WasmValTy.i32]⟩ ∧
    simple_filter_on_event 0 1 = 0 ∧
    simple_filter_on_event 0 2 = 1 := by decide

/-- C8 counterexample: the action trace of `zenith_free` on a non-null
handle contains no join of the consumer thread (its `JoinHandle` was
discarded at spawn), refuting the claimed signal-join-release sequence. -/
theorem free_no_join_counterexample :
    zenith_free_trace false =
      [FreeAction.signalShutdown, FreeAction.releaseEngine] ∧
    FreeAction.joinConsumer ∉ zenith_free_trace false := by decide

/-- C8 amended: `zenith_free` on a non-null handle signals shutdown (the
shared atomic `running` flag is stored `false`, the buffer untouched) and
then releases the engine, without joining the consumer thread; a consumer
iteration with the flag cleared exits immediately without popping (the
queue is not drained), and every event still queued is destroyed — firing
its foreign release — when the buffer is torn down with its last
reference. -/
theorem free_shutdown_semantics (e : EngineModel) (ps : List Nat)
    (b : ZenithRingBuffer) (log : ConsumerLog) :
    zenith_free_trace false =
      [FreeAction.signalShutdown, FreeAction.releaseEngine] ∧
    zenith_free_trace true = [] ∧
    (ZenithEngine.shutdown e).running = false ∧
    (ZenithEngine.shutdown e).buffer = e.buffer ∧
    consumerIteration ps b false log = (b, log, ConsumerStep.exited) ∧
    bufferTeardownDestroys (ZenithEngine.shutdown e).buffer =
      e.buffer.queue.items := by
  refine ⟨by decide, by decide, rfl, rfl, ?_, rfl⟩
  simp [consumerIteration]

/-- C1: every gang reservation is atomic — a placement attempt either
debits the demanded resources on every named node (the reservation is
created and the job moves to `Running`) or leaves the registry exactly as
it was (no reservation, job remains `Queued`); in particular a mid-commit
failure rolls back all partial debits. -/
theorem gang_reservation_atomic (reg : List SchedNode)
    (ds : List (Nat × Resources))
    (hnodup : (reg.map SchedNode.nodeId).Nodup) :
    ((tryGangReserve reg ds).jobState = JobState.Running ∧
      (tryGangReserve reg ds).registry = reg.map (fun n =>
        { n with allocated := n.allocated + demandOn ds n.nodeId }) ∧
      (tryGangReserve reg ds).reservation = some ds) ∨
    ((tryGangReserve reg ds).jobState = JobState.Queued ∧
      (tryGangReserve reg ds).registry = reg ∧
      (tryGangReserve reg ds).reservation = none) := by
  unfold tryGangReserve
  match hcg : commitGang reg ds with
  | some reg2 =>
    left
    exact ⟨rfl, commitGang_map ds reg reg2 hnodup hcg, rfl⟩
  | none =>
    right
    exact ⟨rfl, rfl, rfl⟩

/-- Witness for gang atomicity: two live nodes, a demand on each. -/
theorem gang_reservation_atomic_witness :
    ((tryGangReserve
        [SchedNode.mk 1 ⟨8, 16, 64⟩ ⟨0, 0, 0⟩ true,
          SchedNode.mk 2 ⟨8, 16, 64⟩ ⟨0, 0, 0⟩ true]
        [(1, ⟨4, 2, 8⟩), (2, ⟨4, 2, 8⟩)]).jobState = JobState.Running ∧
      (tryGangReserve
        [SchedNode.mk 1 ⟨8, 16, 64⟩ ⟨0, 0, 0⟩ true,
          SchedNode.mk 2 ⟨8, 16, 64⟩ ⟨0, 0, 0⟩ true]
        [(1, ⟨4, 2, 8⟩), (2, ⟨4, 2, 8⟩)]).registry =
        ([SchedNode.mk 1 ⟨8, 16, 64⟩ ⟨0, 0, 0⟩ true,
          SchedNode.mk 2 ⟨8, 16, 64⟩ ⟨0, 0, 0⟩ true].map (fun n =>
          { n with allocated := n.allocated +
              demandOn [(1, ⟨4, 2, 8⟩), (2, ⟨4, 2, 8⟩)] n.nodeId })) ∧
      (tryGangReserve
        [SchedNode.mk 1 ⟨8, 16, 64⟩ ⟨0, 0, 0⟩ true,
          SchedNode.mk 2 ⟨8, 16, 64⟩ ⟨0, 0, 0⟩ true]
        [(1, ⟨4, 2, 8⟩), (2, ⟨4, 2, 8⟩)]).reservation =
        some [(1, ⟨4, 2, 8⟩), (2, ⟨4, 2, 8⟩)]) ∨
    ((tryGangReserve
        [SchedNode.mk 1 ⟨8, 16, 64⟩ ⟨0, 0, 0⟩ true,
          SchedNode.mk 2 ⟨8, 16, 64⟩ ⟨0, 0, 0⟩ true]
        [(1, ⟨4, 2, 8⟩), (2, ⟨4, 2, 8⟩)]).jobState = JobState.Queued ∧
      (tryGangReserve
        [SchedNode.mk 1 ⟨8, 16, 64⟩ ⟨0, 0, 0⟩ true,
          SchedNode.mk 2 ⟨8, 16, 64⟩ ⟨0, 0, 0⟩ true]
        [(1, ⟨4, 2, 8⟩), (2, ⟨4, 2, 8⟩)]).registry =
        [SchedNode.mk 1 ⟨8, 16, 64⟩ ⟨0, 0, 0⟩ true,
          SchedNode.mk 2 ⟨8, 16, 64⟩ ⟨0, 0, 0⟩ true] ∧
      (tryGangReserve
        [SchedNode.mk 1 ⟨8, 16, 64⟩ ⟨0, 0, 0⟩ true,
          SchedNode.mk 2 ⟨8, 16, 64⟩ ⟨0, 0, 0⟩ true]
        [(1, ⟨4, 2, 8⟩), (2, ⟨4, 2, 8⟩)]).reservation = none) :=
  gang_reservation_atomic
    [SchedNode.mk 1 ⟨8, 16, 64⟩ ⟨0, 0, 0⟩ true,
      SchedNode.mk 2 ⟨8, 16, 64⟩ ⟨0, 0, 0⟩ true]
    [(1, ⟨4, 2, 8⟩), (2, ⟨4, 2, 8⟩)] (by decide)

end Zenith


